import Mathlib

/-
Verification of the backend-hook abstraction layer of the tensor runtime.

The repository fragment under verification is aten/src/ATen/mps/MPSHooks.cpp:
the MPS backend's fulfillment of the capability-hooks contract.  Each of its
methods forwards to an at::mps free function.  The registry, dispatcher and
stub described by the design document live outside the examined fragment, so
they are modelled from the spec (each such definition says so in its doc
comment).  Machine pointers (reference identity of allocator, generator and
capability-interface instances) are modelled as Nat tags; C++ exceptions as
Except values.
-/

set_option maxHeartbeats 1000000

namespace BackendHooks

/-- Backend Identifier: the closed, compile-time enumeration of accelerator
kinds used as the registry key (spec section 3). -/
inductive BackendId where
  | cpu
  | mps
  | cuda
  deriving DecidableEq

/-- DeviceError: the error category surfaced by synchronize when device-side
work failed (spec section 7). -/
structure DeviceError where
  code : Nat
  deriving DecidableEq

/-- Modelled from the spec: the at::mps free-function collaborators that
MPSHooks.cpp forwards to -- at::mps::is_available, at::mps::is_macos_13_or_newer,
at::mps::GetMPSAllocator and at::mps::device_synchronize -- whose bodies are
not part of the examined fragment.  Per spec section 7 the availability probes
are total Bool functions; the allocator is a process-wide object identified by
a Nat tag; device_synchronize either returns normally or signals a DeviceError. -/
structure MPSCollab where
  is_available : Bool
  is_macos_13_or_newer : Bool
  allocatorRef : Nat
  device_synchronize : Except DeviceError Unit

/-- Modelled from the spec: the state of at::mps::detail::getDefaultMPSGenerator,
the backend's canonical shared random-number-generator instance (spec section
4.1), lazily constructed once and identified by a Nat tag thereafter. -/
structure GenState where
  defaultGen : Option Nat
  nextTag : Nat

/-- Modelled from the spec: the collaborator at::mps::detail::getDefaultMPSGenerator,
returning the canonical generator's identity, constructing it on first access. -/
def mpsDetailGetDefaultMPSGenerator (g : GenState) : Nat × GenState :=
  match g.defaultGen with
  | some t => (t, g)
  | none => (g.nextTag, ⟨some g.nextTag, g.nextTag + 1⟩)

/-- Process state touched by MPSHooks::initMPS: the set of usage-log events
already emitted, and the (otherwise untouched) runtime state of the backend. -/
structure ProcState where
  loggedEvents : List String
  backendState : Nat

/-- Modelled from the spec: the C10_LOG_API_USAGE_ONCE macro, which emits a
usage-log event at most once per process and does nothing else. -/
def logApiUsageOnce (ev : String) (s : ProcState) : ProcState :=
  if ev ∈ s.loggedEvents then s else ⟨ev :: s.loggedEvents, s.backendState⟩

/-- MPSHooks::initMPS (MPSHooks.cpp lines 10-13): logs the usage event
"aten.init.mps" once; the device/stream initialization is a TODO in the
source, so nothing else happens. -/
def MPSHooks.initMPS (s : ProcState) : ProcState :=
  logApiUsageOnce "aten.init.mps" s

/-- MPSHooks::hasMPS (MPSHooks.cpp lines 15-17): returns at::mps::is_available(). -/
def MPSHooks.hasMPS (c : MPSCollab) : Bool :=
  c.is_available

/-- MPSHooks::isOnMacOS13orNewer (MPSHooks.cpp lines 19-21): returns
at::mps::is_macos_13_or_newer(). -/
def MPSHooks.isOnMacOS13orNewer (c : MPSCollab) : Bool :=
  c.is_macos_13_or_newer

/-- MPSHooks::getMPSDeviceAllocator (MPSHooks.cpp lines 23-25): returns
at::mps::GetMPSAllocator(). -/
def MPSHooks.getMPSDeviceAllocator (c : MPSCollab) : Nat :=
  c.allocatorRef

/-- MPSHooks::getDefaultMPSGenerator (MPSHooks.cpp lines 27-29): returns
at::mps::detail::getDefaultMPSGenerator(). -/
def MPSHooks.getDefaultMPSGenerator (g : GenState) : Nat × GenState :=
  mpsDetailGetDefaultMPSGenerator g

/-- MPSHooks::deviceSynchronize (MPSHooks.cpp lines 31-33): calls
at::mps::device_synchronize(), adding no handling of its own. -/
def MPSHooks.deviceSynchronize (c : MPSCollab) : Except DeviceError Unit :=
  c.device_synchronize

/-- Modelled from the spec: a Capability Interface Instance (spec section 3),
with a Nat tag standing for its reference identity and its five-method
contract surface. -/
structure CapInstance where
  tag : Nat
  avail : Bool
  platformCap : Nat → Bool
  syncResult : Except DeviceError Unit

/-- Modelled from the spec: the Stub Implementation (spec section 4.4) -- the
single process-wide instance returned for unregistered identifiers:
availability and every platform-capability flag are false, synchronize is a
no-op returning normally. -/
def stubInstance : CapInstance :=
  ⟨0, false, fun _ => false, Except.ok ()⟩

/-- Modelled from the spec: a Factory Entry, a zero-argument constructor of a
Capability Interface Instance (spec section 3). -/
def Factory : Type :=
  Unit → CapInstance

/-- Modelled from the spec: the Hook Registry, the table mapping Backend
Identifier to an optional Factory Entry (spec section 4.2); an unregistered
identifier maps to none. -/
def Registry : Type :=
  BackendId → Option Factory

/-- Modelled from the spec: installing a Factory Entry (spec section 4.2).
The duplicate-registration policy is fixed here as last-writer-wins, one of
the two policies the spec permits; either way at most one entry per
identifier is ever active, since the registry is a function of the identifier. -/
def registerFactory (r : Registry) (x : BackendId) (f : Factory) : Registry :=
  fun y => if y = x then some f else r y

/-- Pointwise update of a table keyed by BackendId. -/
def updAt {α : Type} (m : BackendId → α) (x : BackendId) (v : α) : BackendId → α :=
  fun y => if y = x then v else m y

/-- Modelled from the spec: the Dispatcher's memoization state (spec section
4.3) -- the per-identifier singleton table -- plus the factory-invocation
counter the spec's test 3 instruments. -/
structure DispState where
  memo : BackendId → Option CapInstance
  factoryCalls : BackendId → Nat

/-- Dispatcher state at process start: nothing memoized, no factory invoked. -/
def initDispState : DispState :=
  ⟨fun _ => none, fun _ => 0⟩

/-- Modelled from the spec: the Dispatcher entry point hooksFor (spec section
4.3).  A memoized instance is returned as is; otherwise the registered factory
is invoked once and the result memoized, and an unregistered identifier
memoizes the Stub.  Per spec section 5 the check-and-construct transition is
guarded by an initialization-once primitive, so it is modelled as one atomic
step. -/
def hooksFor (r : Registry) (s : DispState) (x : BackendId) : CapInstance × DispState :=
  match s.memo x with
  | some inst => (inst, s)
  | none =>
    match r x with
    | some f =>
      let inst := f ()
      (inst, ⟨updAt s.memo x (some inst), updAt s.factoryCalls x (s.factoryCalls x + 1)⟩)
    | none => (stubInstance, ⟨updAt s.memo x (some stubInstance), s.factoryCalls⟩)

/-- A trace of dispatcher accesses: each list element is one atomic hooksFor
step by some caller (any interleaving of callers is such a list, since each
step is atomic under the once-primitive of spec section 5); returns the
instance each step observed and the final dispatcher state. -/
def runTrace (r : Registry) : DispState → List BackendId → List CapInstance × DispState
  | s, [] => ([], s)
  | s, y :: ys =>
    ((hooksFor r s y).1 :: (runTrace r (hooksFor r s y).2 ys).1,
     (runTrace r (hooksFor r s y).2 ys).2)

lemma updAt_self {α : Type} (m : BackendId → α) (x : BackendId) (v : α) :
    updAt m x v x = v := by
  simp [updAt]

lemma updAt_other {α : Type} (m : BackendId → α) (x y : BackendId) (v : α)
    (h : y ≠ x) : updAt m x v y = m y := by
  simp [updAt, h]

lemma hooksFor_memo_hit (r : Registry) (s : DispState) (x : BackendId)
    (i : CapInstance) (h : s.memo x = some i) : hooksFor r s x = (i, s) := by
  simp [hooksFor, h]

lemma hooksFor_memo_self (r : Registry) (s : DispState) (x : BackendId) :
    ((hooksFor r s x).2).memo x = some ((hooksFor r s x).1) := by
  unfold hooksFor
  cases h : s.memo x with
  | some i => simp [h]
  | none =>
    cases hr : r x with
    | some f => simp [updAt_self]
    | none => simp [updAt_self]

lemma hooksFor_other_memo (r : Registry) (s : DispState) (x y : BackendId)
    (h : x ≠ y) : ((hooksFor r s y).2).memo x = s.memo x := by
  unfold hooksFor
  cases hy : s.memo y with
  | some i => simp
  | none =>
    cases hr : r y with
    | some f => simp [updAt_other _ _ _ _ h]
    | none => simp [updAt_other _ _ _ _ h]

lemma hooksFor_other_count (r : Registry) (s : DispState) (x y : BackendId)
    (h : x ≠ y) : ((hooksFor r s y).2).factoryCalls x = s.factoryCalls x := by
  unfold hooksFor
  cases hy : s.memo y with
  | some i => simp
  | none =>
    cases hr : r y with
    | some f => simp [updAt_other _ _ _ _ h]
    | none => simp

lemma hooksFor_memo_preserved (r : Registry) (s : DispState) (x y : BackendId)
    (i : CapInstance) (h : s.memo x = some i) :
    ((hooksFor r s y).2).memo x = some i := by
  by_cases hxy : x = y
  · subst hxy
    rw [hooksFor_memo_hit r s x i h]
    exact h
  · rw [hooksFor_other_memo r s x y hxy]
    exact h

lemma runTrace_memo_preserved (r : Registry) (l : List BackendId) (s : DispState)
    (x : BackendId) (i : CapInstance) (h : s.memo x = some i) :
    ((runTrace r s l).2).memo x = some i := by
  induction l generalizing s with
  | nil => simpa [runTrace] using h
  | cons y ys ih =>
    simp only [runTrace]
    exact ih _ (hooksFor_memo_preserved r s x y i h)

lemma hooksFor_unreg_count (r : Registry) (s : DispState) (x y : BackendId)
    (hr : r x = none) : ((hooksFor r s y).2).factoryCalls x = s.factoryCalls x := by
  by_cases hxy : x = y
  · subst hxy
    unfold hooksFor
    cases h : s.memo x with
    | some i => simp
    | none => simp [hr]
  · exact hooksFor_other_count r s x y hxy

lemma runTrace_unreg_count (r : Registry) (x : BackendId) (hr : r x = none)
    (l : List BackendId) (s : DispState) :
    ((runTrace r s l).2).factoryCalls x = s.factoryCalls x := by
  induction l generalizing s with
  | nil => rfl
  | cons y ys ih =>
    simp only [runTrace]
    rw [ih]
    exact hooksFor_unreg_count r s x y hr

lemma runTrace_unreg_inv (r : Registry) (x : BackendId) (hr : r x = none)
    (l : List BackendId) (s : DispState)
    (hs : s.memo x = none ∨ s.memo x = some stubInstance) :
    ((runTrace r s l).2).memo x = none
      ∨ ((runTrace r s l).2).memo x = some stubInstance := by
  induction l generalizing s with
  | nil => simpa [runTrace] using hs
  | cons y ys ih =>
    simp only [runTrace]
    apply ih
    by_cases hxy : x = y
    · subst hxy
      cases hs with
      | inl h =>
        right
        unfold hooksFor
        simp [h, hr, updAt_self]
      | inr h =>
        right
        rw [hooksFor_memo_hit r s x stubInstance h]
        exact h
    · rw [hooksFor_other_memo r s x y hxy]
      exact hs

lemma hooksFor_unreg (r : Registry) (s : DispState) (x : BackendId)
    (hr : r x = none) (hs : s.memo x = none ∨ s.memo x = some stubInstance) :
    (hooksFor r s x).1 = stubInstance := by
  cases hs with
  | inl h =>
    unfold hooksFor
    simp [h, hr]
  | inr h =>
    rw [hooksFor_memo_hit r s x stubInstance h]

/-- Claim C2: for every Backend Identifier with no registered factory, every
hooksFor call (at any point in any trace of dispatcher accesses from process
start) returns the Stub instance rather than failing, and on that result
availability is false, every platform-capability flag is false, and
synchronize is a no-op returning normally -- no exception on any of these. -/
theorem hooksFor_unregistered_stub (r : Registry) (x : BackendId)
    (l : List BackendId) (flag : Nat) (hr : r x = none) :
    (hooksFor r ((runTrace r initDispState l).2) x).1 = stubInstance
    ∧ stubInstance.avail = false
    ∧ stubInstance.platformCap flag = false
    ∧ stubInstance.syncResult = Except.ok () := by
  refine ⟨?_, rfl, rfl, rfl⟩
  exact hooksFor_unreg r _ x hr
    (runTrace_unreg_inv r x hr l initDispState (Or.inl rfl))

/-- Witness for C2: requesting hooks for an unregistered identifier after one
unrelated access returns the Stub, which reports no availability. -/
theorem hooksFor_unregistered_stub_witness :
    (hooksFor (fun _ => none)
        ((runTrace (fun _ => none) initDispState [BackendId.mps]).2)
        BackendId.cuda).1 = stubInstance
    ∧ stubInstance.avail = false
    ∧ stubInstance.platformCap 0 = false
    ∧ stubInstance.syncResult = Except.ok () :=
  hooksFor_unregistered_stub (fun _ => none) BackendId.cuda [BackendId.mps] 0 rfl

/-- Claim C3: the availability probes are total: hasMPS yields the normal
value false whenever the backend is absent or unusable, isOnMacOS13orNewer is
insensitive to availability (callable regardless of its result), and the Stub
likewise answers false for availability and for every capability flag; none
of these computations can signal an error (their embedded types carry no
error case, mirroring the throw-free source bodies and the spec-total
collaborators). -/
theorem capability_probes_total (c : MPSCollab) (b : Bool) (flag : Nat) :
    (c.is_available = false → MPSHooks.hasMPS c = false)
    ∧ MPSHooks.isOnMacOS13orNewer ⟨b, c.is_macos_13_or_newer, c.allocatorRef,
        c.device_synchronize⟩ = MPSHooks.isOnMacOS13orNewer c
    ∧ stubInstance.avail = false
    ∧ stubInstance.platformCap flag = false := by
  exact ⟨fun h => h, rfl, rfl, rfl⟩

/-- Witness for C3: on a collaborator state with MPS absent, hasMPS is false. -/
theorem capability_probes_total_witness :
    MPSHooks.hasMPS ⟨false, true, 0, Except.ok ()⟩ = false :=
  (capability_probes_total ⟨false, true, 0, Except.ok ()⟩ true 0).1 rfl

/-- Claim C4: deviceSynchronize returns normally exactly when the device-side
work completed successfully, and whenever the device work failed the very
DeviceError is what the caller observes: the hooks layer forwards the
collaborator's outcome unchanged, swallowing nothing on any path. -/
theorem deviceSynchronize_propagates_errors (c : MPSCollab) :
    (MPSHooks.deviceSynchronize c = Except.ok ()
      ↔ c.device_synchronize = Except.ok ())
    ∧ ∀ e : DeviceError,
        (MPSHooks.deviceSynchronize c = Except.error e
          ↔ c.device_synchronize = Except.error e) := by
  exact ⟨Iff.rfl, fun e => Iff.rfl⟩

/-- Witness for C4: a device failure with code 3 surfaces to the caller as
exactly that error. -/
theorem deviceSynchronize_propagates_errors_witness :
    MPSHooks.deviceSynchronize ⟨true, true, 0, Except.error ⟨3⟩⟩
      = Except.error ⟨3⟩ :=
  ((deviceSynchronize_propagates_errors ⟨true, true, 0, Except.error ⟨3⟩⟩).2
    ⟨3⟩).mpr rfl

/-- Claim C6: two calls to getDefaultMPSGenerator on the same hooks instance
return the identical shared generator object: the second call returns the
same reference as the first and leaves the generator state unchanged. -/
theorem defaultGenerator_single_instance (g : GenState) :
    (MPSHooks.getDefaultMPSGenerator
        ((MPSHooks.getDefaultMPSGenerator g).2)).1
      = (MPSHooks.getDefaultMPSGenerator g).1
    ∧ (MPSHooks.getDefaultMPSGenerator
        ((MPSHooks.getDefaultMPSGenerator g).2)).2
      = (MPSHooks.getDefaultMPSGenerator g).2 := by
  unfold MPSHooks.getDefaultMPSGenerator mpsDetailGetDefaultMPSGenerator
  cases h : g.defaultGen with
  | some t => simp [h]
  | none => simp

/-- Claim C7: registering a factory twice for one identifier resolves
deterministically by the fixed last-writer-wins policy: the result is exactly
the registry obtained by registering the second factory alone, the identifier
maps to the second factory, other identifiers are untouched, and -- the
registry being a function of the identifier -- no two entries for one
identifier are ever simultaneously active. -/
theorem duplicate_registration_policy (r : Registry) (x : BackendId)
    (f1 f2 : Factory) :
    registerFactory (registerFactory r x f1) x f2 = registerFactory r x f2
    ∧ registerFactory (registerFactory r x f1) x f2 x = some f2
    ∧ ∀ y : BackendId, y ≠ x →
        registerFactory (registerFactory r x f1) x f2 y = r y := by
  refine ⟨funext fun y => ?_, by simp [registerFactory],
    fun y hy => by simp [registerFactory, hy]⟩
  by_cases h : y = x <;> simp [registerFactory, h]

/-- Witness for C7: registering two distinct factories for the MPS identifier
leaves the second as the single active entry and the CPU entry untouched. -/
theorem duplicate_registration_policy_witness :
    registerFactory (registerFactory (fun _ => none) BackendId.mps
        (fun _ => stubInstance)) BackendId.mps
        (fun _ => ⟨1, true, fun _ => true, Except.ok ()⟩) BackendId.mps
      = some (fun _ => ⟨1, true, fun _ => true, Except.ok ()⟩)
    ∧ registerFactory (registerFactory (fun _ => none) BackendId.mps
        (fun _ => stubInstance)) BackendId.mps
        (fun _ => ⟨1, true, fun _ => true, Except.ok ()⟩) BackendId.cpu
      = none :=
  ⟨(duplicate_registration_policy (fun _ => none) BackendId.mps
      (fun _ => stubInstance)
      (fun _ => ⟨1, true, fun _ => true, Except.ok ()⟩)).2.1,
   (duplicate_registration_policy (fun _ => none) BackendId.mps
      (fun _ => stubInstance)
      (fun _ => ⟨1, true, fun _ => true, Except.ok ()⟩)).2.2 BackendId.cpu
      (by simp)⟩

/-- Claim C9: every capability method of the MPS hooks object is observably
equal to the single collaborator free function it wraps, with no added state,
caching or branching; in particular getMPSDeviceAllocator is insensitive to
every other collaborator field -- availability included -- so it performs no
availability precondition check of its own. -/
theorem mpshooks_pure_forwarding (c : MPSCollab) (g : GenState) (b b2 : Bool)
    (e : Except DeviceError Unit) :
    MPSHooks.hasMPS c = c.is_available
    ∧ MPSHooks.isOnMacOS13orNewer c = c.is_macos_13_or_newer
    ∧ MPSHooks.getMPSDeviceAllocator c = c.allocatorRef
    ∧ MPSHooks.getDefaultMPSGenerator g = mpsDetailGetDefaultMPSGenerator g
    ∧ MPSHooks.deviceSynchronize c = c.device_synchronize
    ∧ MPSHooks.getMPSDeviceAllocator ⟨b, b2, c.allocatorRef, e⟩
        = MPSHooks.getMPSDeviceAllocator c := by
  exact ⟨rfl, rfl, rfl, rfl, rfl, rfl⟩

lemma hooksFor_first_construct (r : Registry) (s : DispState) (x : BackendId)
    (f : Factory) (hr : r x = some f) (hm : s.memo x = none) :
    hooksFor r s x
      = (f (), ⟨updAt s.memo x (some (f ())),
          updAt s.factoryCalls x (s.factoryCalls x + 1)⟩) := by
  unfold hooksFor
  simp [hm, hr]

lemma runTrace_once_inv (r : Registry) (x : BackendId) (f : Factory)
    (hr : r x = some f) (l : List BackendId) (s : DispState)
    (hs : (s.memo x = none ∧ s.factoryCalls x = 0)
        ∨ (s.memo x = some (f ()) ∧ s.factoryCalls x = 1)) :
    ((((runTrace r s l).2).memo x = none
        ∧ ((runTrace r s l).2).factoryCalls x = 0 ∧ x ∉ l)
      ∨ (((runTrace r s l).2).memo x = some (f ())
        ∧ ((runTrace r s l).2).factoryCalls x = 1))
    ∧ ∀ p ∈ List.zip l (runTrace r s l).1, p.1 = x → p.2 = f () := by
  induction l generalizing s with
  | nil =>
    refine ⟨?_, by simp⟩
    cases hs with
    | inl h => exact Or.inl ⟨h.1, h.2, by simp⟩
    | inr h => exact Or.inr h
  | cons y ys ih =>
    by_cases hxy : x = y
    · subst hxy
      have hstep : ((hooksFor r s x).2).memo x = some (f ())
          ∧ ((hooksFor r s x).2).factoryCalls x = 1
          ∧ (hooksFor r s x).1 = f () := by
        cases hs with
        | inl h =>
          rw [hooksFor_first_construct r s x f hr h.1]
          exact ⟨updAt_self _ _ _, by simp [updAt, h.2], rfl⟩
        | inr h =>
          rw [hooksFor_memo_hit r s x (f ()) h.1]
          exact ⟨h.1, h.2, rfl⟩
      have hrest := ih ((hooksFor r s x).2) (Or.inr ⟨hstep.1, hstep.2.1⟩)
      refine ⟨?_, ?_⟩
      · simp only [runTrace]
        cases hrest.1 with
        | inl h =>
          exact absurd h.1 (by rw [runTrace_memo_preserved r ys _ x _ hstep.1]; simp)
        | inr h => exact Or.inr h
      · simp only [runTrace, List.zip_cons_cons, List.mem_cons]
        intro p hp
        cases hp with
        | inl h =>
          intro _
          rw [h]
          exact hstep.2.2
        | inr h => exact hrest.2 p h
    · have hmemo := hooksFor_other_memo r s x y hxy
      have hcount := hooksFor_other_count r s x y hxy
      have hs2 : (((hooksFor r s y).2).memo x = none
            ∧ ((hooksFor r s y).2).factoryCalls x = 0)
          ∨ (((hooksFor r s y).2).memo x = some (f ())
            ∧ ((hooksFor r s y).2).factoryCalls x = 1) := by
        cases hs with
        | inl h => exact Or.inl ⟨by rw [hmemo]; exact h.1, by rw [hcount]; exact h.2⟩
        | inr h => exact Or.inr ⟨by rw [hmemo]; exact h.1, by rw [hcount]; exact h.2⟩
      have hrest := ih ((hooksFor r s y).2) hs2
      refine ⟨?_, ?_⟩
      · simp only [runTrace]
        cases hrest.1 with
        | inl h =>
          exact Or.inl ⟨h.1, h.2.1, by
            simp only [List.mem_cons]
            rintro (h1 | h2)
            · exact hxy h1
            · exact h.2.2 h2⟩
        | inr h => exact Or.inr h
      · simp only [runTrace, List.zip_cons_cons, List.mem_cons]
        intro p hp
        cases hp with
        | inl h =>
          intro hpx
          rw [h] at hpx
          exact absurd hpx.symm hxy
        | inr h => exact hrest.2 p h

/-- Claim C1: for every Backend Identifier, at most one Capability Interface
Instance is ever constructed (over any trace of dispatcher accesses from
process start the factory runs at most once), and every hooksFor call after
the first -- with any trace of other dispatcher accesses in between --
returns the same instance: reference identity is stable for the process
lifetime. -/
theorem hooksFor_identity_stable (r : Registry) (s : DispState) (x : BackendId)
    (l l2 : List BackendId) :
    (hooksFor r ((runTrace r (hooksFor r s x).2 l).2) x).1 = (hooksFor r s x).1
    ∧ ((runTrace r initDispState l2).2).factoryCalls x ≤ 1 := by
  constructor
  · have h1 := hooksFor_memo_self r s x
    have h2 := runTrace_memo_preserved r l _ x _ h1
    rw [hooksFor_memo_hit r _ x _ h2]
  · cases hr : r x with
    | none => rw [runTrace_unreg_count r x hr l2 initDispState]; exact Nat.zero_le 1
    | some f =>
      have h := (runTrace_once_inv r x f hr l2 initDispState (Or.inl ⟨rfl, rfl⟩)).1
      cases h with
      | inl h0 => rw [h0.2.1]; exact Nat.zero_le 1
      | inr h1 => rw [h1.2]

/-- Claim C8: for a registered identifier, along any interleaving of first
accesses from process start (each access an atomic hooksFor step, as the
spec's once-primitive guarantees), the registered factory is invoked exactly
once, and every caller that asked for that identifier -- first or later --
received the same fully constructed instance the factory produced. -/
theorem concurrent_first_use_single_construction (r : Registry) (x : BackendId)
    (f : Factory) (l : List BackendId) (hr : r x = some f) (hx : x ∈ l) :
    ((runTrace r initDispState l).2).factoryCalls x = 1
    ∧ ∀ p ∈ List.zip l (runTrace r initDispState l).1, p.1 = x → p.2 = f () := by
  have h := runTrace_once_inv r x f hr l initDispState (Or.inl ⟨rfl, rfl⟩)
  refine ⟨?_, h.2⟩
  cases h.1 with
  | inl hcon => exact absurd hx hcon.2.2
  | inr hok => exact hok.2

/-- Witness for C8: three callers of the MPS identifier interleaved with one
CPU access cause exactly one factory invocation, and the second MPS caller
observes the factory's instance. -/
theorem concurrent_first_use_single_construction_witness :
    ((runTrace
        (fun y => if y = BackendId.mps
          then some (fun _ => ⟨7, true, fun _ => true, Except.ok ()⟩) else none)
        initDispState
        [BackendId.mps, BackendId.cpu, BackendId.mps, BackendId.mps]).2).factoryCalls
      BackendId.mps = 1
    ∧ ((runTrace
        (fun y => if y = BackendId.mps
          then some (fun _ => ⟨7, true, fun _ => true, Except.ok ()⟩) else none)
        initDispState
        [BackendId.mps, BackendId.cpu, BackendId.mps, BackendId.mps]).1).get?
      2 = some ⟨7, true, fun _ => true, Except.ok ()⟩ := by
  have h := concurrent_first_use_single_construction
    (fun y => if y = BackendId.mps
      then some (fun _ => ⟨7, true, fun _ => true, Except.ok ()⟩) else none)
    BackendId.mps (fun _ => ⟨7, true, fun _ => true, Except.ok ()⟩)
    [BackendId.mps, BackendId.cpu, BackendId.mps, BackendId.mps]
    (by simp) (by simp)
  refine ⟨h.1, ?_⟩
  have h2 := h.2
  simp only [runTrace, hooksFor, initDispState, updAt, stubInstance] at h2 ⊢
  rfl

lemma initMPS_idem (s : ProcState) :
    MPSHooks.initMPS (MPSHooks.initMPS s) = MPSHooks.initMPS s := by
  unfold MPSHooks.initMPS logApiUsageOnce
  by_cases h : "aten.init.mps" ∈ s.loggedEvents <;> simp [h]

/-- Claim C10: initMPS changes no runtime state of the hooks object or the
backend: its only observable effect is emitting the usage-log event
"aten.init.mps" at most once per process (it is present after the first call,
the count of every event grows by at most that one emission, and no other
event's count changes), and every subsequent call is a complete no-op. -/
theorem initMPS_log_once_no_state_change (s : ProcState) (k : Nat) :
    (MPSHooks.initMPS s).backendState = s.backendState
    ∧ "aten.init.mps" ∈ (MPSHooks.initMPS s).loggedEvents
    ∧ ((MPSHooks.initMPS s).loggedEvents).count "aten.init.mps"
        ≤ (s.loggedEvents).count "aten.init.mps" + 1
    ∧ (∀ ev : String, ev ≠ "aten.init.mps" →
        ((MPSHooks.initMPS s).loggedEvents).count ev = (s.loggedEvents).count ev)
    ∧ MPSHooks.initMPS^[k] (MPSHooks.initMPS s) = MPSHooks.initMPS s := by
  refine ⟨?_, ?_, ?_, ?_, ?_⟩
  · unfold MPSHooks.initMPS logApiUsageOnce
    by_cases h : "aten.init.mps" ∈ s.loggedEvents <;> simp [h]
  · unfold MPSHooks.initMPS logApiUsageOnce
    by_cases h : "aten.init.mps" ∈ s.loggedEvents <;> simp [h]
  · unfold MPSHooks.initMPS logApiUsageOnce
    by_cases h : "aten.init.mps" ∈ s.loggedEvents <;> simp [h, List.count_cons]
  · intro ev hev
    unfold MPSHooks.initMPS logApiUsageOnce
    by_cases h : "aten.init.mps" ∈ s.loggedEvents <;>
      simp [h, List.count_cons, hev]
  · induction k with
    | zero => rfl
    | succ n ihn =>
      rw [Function.iterate_succ_apply, initMPS_idem]
      exact ihn

/-- Witness for C10: from a fresh process state, initMPS keeps the backend
state intact, records the event, and a repeated call changes nothing. -/
theorem initMPS_log_once_no_state_change_witness :
    (MPSHooks.initMPS ⟨[], 7⟩).backendState = 7
    ∧ "aten.init.mps" ∈ (MPSHooks.initMPS ⟨[], 7⟩).loggedEvents
    ∧ ((MPSHooks.initMPS ⟨[], 7⟩).loggedEvents).count "other"
        = (([] : List String)).count "other"
    ∧ MPSHooks.initMPS^[2] (MPSHooks.initMPS ⟨[], 7⟩)
        = MPSHooks.initMPS ⟨[], 7⟩ := by
  have h := initMPS_log_once_no_state_change ⟨[], 7⟩ 2
  exact ⟨h.1, h.2.1, h.2.2.2.1 "other" (by simp), h.2.2.2.2⟩

end BackendHooks
